import Mathlib

/-!
Verification of the zkSync storage codec utilities (`core/storage/src/utils.rs`).

The file shallowly embeds the two components of that module:

* the prefixed hex codec (`BytesToHexSerde` / `OptionBytesToHexSerde`),
  parameterised by a tag type yielding a fixed tag string
  (`SyncBlockPrefix` = "sync-bl:", `ZeroxPrefix` = "0x",
  `SyncTxPrefix` = "sync-tx:");
* the exact-decimal adapter `StoredBigUint` with its `to_sql` / `from_sql`
  conversions through `BigDecimal`.

Modelling conventions: Rust `Vec<u8>` is `List Nat` with every element below
256; Rust strings are `List Char` (every tag string is ASCII, so the byte
offset `P::prefix().len()` used for slicing coincides with the char count);
`serde` success/failure is `Except`; the external representation of an
`Option` is `Option` itself (serde's native null marker is `none`).
`BigUint` is `Nat`, `BigInt` is `Int`, and `BigDecimal` is the
`(int_val, scale)` pair of the `bigdecimal` crate, denoting the rational
number `int_val / 10 ^ scale`.
-/

namespace ZkSyncStorage

/-! ## Hex primitive (the `hex` crate) -/

/-- Lowercase hex digit character for a value below 16:
`0`-`9` are codepoints 48-57 and `a`-`f` are 97-102. -/
def hexDigitChar (n : Nat) : Char :=
  if n < 10 then Char.ofNat (48 + n) else Char.ofNat (87 + n)

/-- `hex::encode`: each byte becomes its high nibble followed by its low
nibble, in lowercase. -/
def hexEncode : List Nat → List Char
  | [] => []
  | b :: rest => hexDigitChar (b / 16) :: hexDigitChar (b % 16) :: hexEncode rest

/-- Error type of `hex::decode` (`hex::FromHexError`).  The crate also
records the offending position in `invalidHexCharacter`; the position is
dropped here since nothing downstream consumes it. -/
inductive HexError
  | invalidHexCharacter (c : Char)
  | oddLength
deriving Repr, DecidableEq

/-- Value of one hex digit, accepting both lowercase and uppercase. -/
def hexDigitVal (c : Char) : Option Nat :=
  if 48 ≤ c.toNat ∧ c.toNat ≤ 57 then some (c.toNat - 48)
  else if 97 ≤ c.toNat ∧ c.toNat ≤ 102 then some (c.toNat - 87)
  else if 65 ≤ c.toNat ∧ c.toNat ≤ 70 then some (c.toNat - 55)
  else none

/-- Pairwise decoding loop of `hex::decode` (its `chunks(2)` fold). -/
def hexDecodePairs : List Char → Except HexError (List Nat)
  | [] => .ok []
  | [_] => .error .oddLength
  | c₁ :: c₂ :: rest =>
    match hexDigitVal c₁ with
    | none => .error (.invalidHexCharacter c₁)
    | some h =>
      match hexDigitVal c₂ with
      | none => .error (.invalidHexCharacter c₂)
      | some l =>
        match hexDecodePairs rest with
        | .ok bs => .ok ((16 * h + l) :: bs)
        | .error e => .error e

/-- `hex::decode`: rejects odd input length up front, then decodes pairs. -/
def hexDecode (s : List Char) : Except HexError (List Nat) :=
  if s.length % 2 ≠ 0 then .error .oddLength else hexDecodePairs s

/-! ## The serde layer -/

/-- Deserialization error (`de::Error::custom` carrying a message). -/
inductive DeError
  | custom (msg : List Char)
deriving Repr, DecidableEq

/-- Display message of a `hex::FromHexError`, as passed to
`de::Error::custom` by the codec. -/
def HexError.message : HexError → List Char
  | .oddLength => "Odd number of digits".data
  | .invalidHexCharacter c => "Invalid character: ".data ++ [c]

/-- The `format!("string value missing prefix: {}", P::prefix())` message. -/
def missingTagMessage (P : List Char) : List Char :=
  "string value missing prefix: ".data ++ P

/-- `Result::map_err` specialised to `Except`. -/
def exceptMapError (f : ε → ε') : Except ε α → Except ε' α
  | .ok a => .ok a
  | .error e => .error (f e)

/-- Tag string of `SyncBlockPrefix`. -/
def SyncBlockPrefix : List Char := "sync-bl:".data

/-- Tag string of `ZeroxPrefix`. -/
def ZeroxPrefix : List Char := "0x".data

/-- Tag string of `SyncTxPrefix`. -/
def SyncTxPrefix : List Char := "sync-tx:".data

namespace BytesToHexSerde

/-- `BytesToHexSerde::<P>::serialize`: the string handed to the underlying
`String::serialize` is `format!("{}{}", P::prefix(), hex::encode(value))`. -/
def serialize (P : List Char) (value : List Nat) : List Char :=
  P ++ hexEncode value

/-- `BytesToHexSerde::<P>::deserialize` after the underlying
`String::deserialize` produced `s`: check `starts_with`, slice off the tag,
hex-decode the remainder mapping its error through `de::Error::custom`. -/
def deserialize (P : List Char) (s : List Char) : Except DeError (List Nat) :=
  if P.isPrefixOf s then
    exceptMapError (fun e => DeError.custom e.message) (hexDecode (s.drop P.length))
  else
    .error (.custom (missingTagMessage P))

end BytesToHexSerde

/-- `Option<Result<..>>::transpose`. -/
def optionTranspose : Option (Except ε α) → Except ε (Option α)
  | none => .ok none
  | some (.ok a) => .ok (some a)
  | some (.error e) => .error e

namespace OptionBytesToHexSerde

/-- `OptionBytesToHexSerde::<P>::serialize`: maps the payload to the tagged
hex string and hands the resulting `Option<String>` to `Option::serialize`
(`none` is serde's native null marker). -/
def serialize (P : List Char) (value : Option (List Nat)) : Option (List Char) :=
  value.map (fun val => P ++ hexEncode val)

/-- `OptionBytesToHexSerde::<P>::deserialize` after `Option::deserialize`
produced `s`: map the present case through the prefixed decode
(`Ok(&s[len..]).and_then(|hex_str| hex::decode(hex_str).map_err(custom))`),
then transpose. -/
def deserialize (P : List Char) (s : Option (List Char)) :
    Except DeError (Option (List Nat)) :=
  optionTranspose (s.map (fun s =>
    if P.isPrefixOf s then
      (Except.ok (s.drop P.length)).bind (fun hexStr =>
        exceptMapError (fun e => DeError.custom e.message) (hexDecode hexStr))
    else
      .error (.custom (missingTagMessage P))))

end OptionBytesToHexSerde

/-! ## The exact-decimal adapter -/

/-- The `bigdecimal` crate's representation: the denoted number is
`intVal / 10 ^ scale`. -/
structure BigDecimal where
  intVal : Int
  scale : Int
deriving Repr, DecidableEq

/-- `ten_to_the` of the `bigdecimal` crate. -/
def tenToThe (k : Nat) : Int := 10 ^ k

/-- `BigDecimal::is_integer`: a non-positive scale is integral, otherwise
the integer part must be divisible by `10 ^ scale`. -/
def BigDecimal.isInteger (bd : BigDecimal) : Bool :=
  if bd.scale ≤ 0 then true
  else bd.intVal.tmod (tenToThe bd.scale.toNat) == 0

/-- Integer value of `BigDecimal::with_scale(0)` (Rust `BigInt` division
truncates toward zero, hence `Int.tdiv`).  The crate's early return on a
zero `int_val` yields the same `int_val` as these formulas. -/
def BigDecimal.withScale0IntVal (bd : BigDecimal) : Int :=
  if 0 > bd.scale then bd.intVal * tenToThe (0 - bd.scale).toNat
  else if 0 < bd.scale then bd.intVal.tdiv (tenToThe bd.scale.toNat)
  else bd.intVal

/-- `ToBigInt::to_bigint` for `BigDecimal`: always succeeds, truncating the
fractional part. -/
def BigDecimal.toBigInt (bd : BigDecimal) : Option Int :=
  some bd.withScale0IntVal

/-- The rational number a `BigDecimal` denotes. -/
def BigDecimal.value (bd : BigDecimal) : Rat :=
  (bd.intVal : Rat) / (10 : Rat) ^ bd.scale

/-- `BigInt::to_biguint` of the `num` crate: fails on negative sign. -/
def bigIntToBigUint (n : Int) : Option Nat :=
  if n < 0 then none else some n.toNat

/-- `StoredBigUint` wraps a `BigUint`. -/
structure StoredBigUint where
  val : Nat
deriving Repr, DecidableEq

/-- Errors surfaced by `StoredBigUint::from_sql`: diesel's
`UnexpectedNullError` from the inner `BigDecimal::from_sql` on an absent
value, and the two boxed message errors of the function itself. -/
inductive SqlError
  | unexpectedNull
  | custom (msg : List Char)
deriving Repr, DecidableEq

/-- `StoredBigUint::to_sql`: `BigDecimal::from(BigInt::from(self.0))`,
which is the decimal with scale 0 (zero fractional digits).  The value is
then handed to `BigDecimal`'s own `ToSql`, which is outside this core. -/
def StoredBigUint.to_sql (s : StoredBigUint) : BigDecimal :=
  { intVal := (s.val : Int), scale := 0 }

/-- `StoredBigUint::from_sql`: read the `BigDecimal` (diesel fails with an
unexpected-null error when the raw column value is absent), require it to
be integral, convert to `BigInt` then `BigUint`, rejecting negatives. -/
def StoredBigUint.from_sql (bytes : Option BigDecimal) :
    Except SqlError StoredBigUint :=
  match bytes with
  | none => .error .unexpectedNull
  | some big_decimal =>
    if big_decimal.isInteger then
      match big_decimal.toBigInt.bind bigIntToBigUint with
      | some n => .ok ⟨n⟩
      | none => .error (.custom "Not unsigned integer".data)
    else
      .error (.custom "Decimal number stored as BigUint".data)

/-! ## Helper lemmas about the hex primitive -/

theorem hexDigitVal_hexDigitChar : ∀ d, d < 16 → hexDigitVal (hexDigitChar d) = some d := by
  decide

theorem hexDigitVal_lt {c : Char} {d : Nat} (h : hexDigitVal c = some d) : d < 16 := by
  unfold hexDigitVal at h
  split at h
  · injection h with h; omega
  · split at h
    · injection h with h; omega
    · split at h
      · injection h with h; omega
      · cases h

theorem hexEncode_length (b : List Nat) : (hexEncode b).length = 2 * b.length := by
  induction b with
  | nil => rfl
  | cons x rest ih => simp only [hexEncode, List.length_cons, ih]; omega

theorem hexDecodePairs_hexEncode (b : List Nat) (hb : ∀ x ∈ b, x < 256) :
    hexDecodePairs (hexEncode b) = .ok b := by
  induction b with
  | nil => rfl
  | cons x rest ih =>
    have hx : x < 256 := hb x (List.mem_cons_self x rest)
    have h1 : x / 16 < 16 := by omega
    have h2 : x % 16 < 16 := by omega
    have hr : hexDecodePairs (hexEncode rest) = .ok rest :=
      ih (fun y hy => hb y (List.mem_cons_of_mem x hy))
    simp only [hexEncode, hexDecodePairs, hexDigitVal_hexDigitChar _ h1,
      hexDigitVal_hexDigitChar _ h2, hr]
    have : 16 * (x / 16) + x % 16 = x := by omega
    rw [this]

theorem hexDecode_hexEncode (b : List Nat) (hb : ∀ x ∈ b, x < 256) :
    hexDecode (hexEncode b) = .ok b := by
  unfold hexDecode
  rw [hexEncode_length]
  simp [hexDecodePairs_hexEncode b hb]

theorem hexDecodePairs_ok_bytes : {s : List Char} → {r : List Nat} →
    hexDecodePairs s = .ok r → ∀ x ∈ r, x < 256
  | [], _, h => by
    simp only [hexDecodePairs, Except.ok.injEq] at h
    subst h
    intro x hx
    cases hx
  | [_], _, h => by simp [hexDecodePairs] at h
  | c₁ :: c₂ :: rest, r, h => by
    revert h
    unfold hexDecodePairs
    cases hd₁ : hexDigitVal c₁ with
    | none => intro h; cases h
    | some v₁ =>
      cases hd₂ : hexDigitVal c₂ with
      | none => intro h; cases h
      | some v₂ =>
        cases hrec : hexDecodePairs rest with
        | error e => intro h; cases h
        | ok bs =>
          intro h
          injection h with h
          subst h
          intro x hx
          rcases List.mem_cons.mp hx with hx | hx
          · have l₁ := hexDigitVal_lt hd₁
            have l₂ := hexDigitVal_lt hd₂
            omega
          · exact hexDecodePairs_ok_bytes hrec x hx

theorem hexDecode_ok_bytes {s : List Char} {r : List Nat}
    (h : hexDecode s = .ok r) : ∀ x ∈ r, x < 256 := by
  unfold hexDecode at h
  split at h
  · cases h
  · exact hexDecodePairs_ok_bytes h

/-! ## Helper lemmas about the codec -/

theorem isPrefixOf_append_self (P t : List Char) : P.isPrefixOf (P ++ t) = true :=
  List.isPrefixOf_iff_prefix.mpr (List.prefix_append P t)

theorem not_isPrefixOf_append {T U : List Char} (hTU : ¬ T <+: U) (hUT : ¬ U <+: T)
    (rest : List Char) : T.isPrefixOf (U ++ rest) = false := by
  rw [Bool.eq_false_iff]
  intro h
  rcases List.prefix_or_prefix_of_prefix (List.isPrefixOf_iff_prefix.mp h)
    (List.prefix_append U rest) with h | h
  · exact hTU h
  · exact hUT h

theorem deserialize_append_hexEncode (P : List Char) (b : List Nat)
    (hb : ∀ x ∈ b, x < 256) :
    BytesToHexSerde.deserialize P (P ++ hexEncode b) = .ok b := by
  unfold BytesToHexSerde.deserialize
  rw [isPrefixOf_append_self]
  simp only [if_true, List.drop_left, hexDecode_hexEncode b hb, exceptMapError]

theorem option_deserialize_some (P s : List Char) :
    OptionBytesToHexSerde.deserialize P (some s) =
      match BytesToHexSerde.deserialize P s with
      | .ok b => .ok (some b)
      | .error e => .error e := by
  unfold OptionBytesToHexSerde.deserialize BytesToHexSerde.deserialize
  cases hp : P.isPrefixOf s
  · simp only [Option.map_some', hp, Bool.false_eq_true, if_false]
    rfl
  · simp only [Option.map_some', hp, if_true]
    show optionTranspose (some (exceptMapError (fun e => DeError.custom e.message)
        (hexDecode (s.drop P.length)))) =
      match exceptMapError (fun e => DeError.custom e.message)
          (hexDecode (s.drop P.length)) with
      | Except.ok b => Except.ok (some b)
      | Except.error e => Except.error e
    cases exceptMapError (fun e => DeError.custom e.message)
      (hexDecode (s.drop P.length)) <;> rfl

theorem deserialize_ok_bytes {P s : List Char} {b : List Nat}
    (h : BytesToHexSerde.deserialize P s = .ok b) : ∀ x ∈ b, x < 256 := by
  unfold BytesToHexSerde.deserialize at h
  split at h
  · revert h
    cases hd : hexDecode (s.drop P.length) with
    | ok r =>
      intro h
      simp only [exceptMapError, Except.ok.injEq] at h
      subst h
      exact hexDecode_ok_bytes hd
    | error e =>
      intro h
      simp [exceptMapError] at h
  · cases h

theorem hexDigitChar_mem : ∀ d, d < 16 → hexDigitChar d ∈ "0123456789abcdef".data := by
  decide

theorem hexEncode_lowercase (b : List Nat) (hb : ∀ x ∈ b, x < 256) :
    ∀ c ∈ hexEncode b, c ∈ "0123456789abcdef".data := by
  induction b with
  | nil => intro c hc; cases hc
  | cons x rest ih =>
    intro c hc
    have hx : x < 256 := hb x (List.mem_cons_self x rest)
    simp only [hexEncode] at hc
    rcases List.mem_cons.mp hc with h | hc₂
    · subst h; exact hexDigitChar_mem _ (by omega)
    rcases List.mem_cons.mp hc₂ with h | hc₃
    · subst h; exact hexDigitChar_mem _ (by omega)
    · exact ih (fun y hy => hb y (List.mem_cons_of_mem x hy)) c hc₃

/-! ## Claim theorems: prefixed hex codec -/

/-- Claim C1: for every byte sequence `b` and every registered tag
(`SyncBlockPrefix`, `ZeroxPrefix`, `SyncTxPrefix`), deserializing the string
produced by serializing `b` under the same tag succeeds and yields `b`. -/
theorem C1_roundtrip_bytes (b : List Nat) (hb : ∀ x ∈ b, x < 256)
    (P : List Char)
    (hP : P = SyncBlockPrefix ∨ P = ZeroxPrefix ∨ P = SyncTxPrefix) :
    BytesToHexSerde.deserialize P (BytesToHexSerde.serialize P b) = .ok b := by
  rcases hP with h | h | h <;> subst h <;> exact deserialize_append_hexEncode _ b hb

theorem C1_roundtrip_bytes_witness :
    BytesToHexSerde.deserialize ZeroxPrefix
      (BytesToHexSerde.serialize ZeroxPrefix [171, 205]) = .ok [171, 205] :=
  C1_roundtrip_bytes [171, 205] (by decide) ZeroxPrefix (Or.inr (Or.inl rfl))

/-- Claim C3: deserialization succeeds exactly when the input starts with the
tag and the remainder is valid hex; a missing tag yields the format error
whose message names the missing tag, and a hex-decode failure is propagated
(wrapped by `de::Error::custom`), not swallowed. -/
theorem C3_deserialize_classification (P s : List Char) :
    ((∃ b, BytesToHexSerde.deserialize P s = .ok b) ↔
      (P.isPrefixOf s = true ∧ ∃ b, hexDecode (s.drop P.length) = .ok b)) ∧
    (P.isPrefixOf s = false →
      BytesToHexSerde.deserialize P s = .error (.custom (missingTagMessage P))) ∧
    missingTagMessage P = "string value missing prefix: ".data ++ P ∧
    (∀ e, P.isPrefixOf s = true → hexDecode (s.drop P.length) = .error e →
      BytesToHexSerde.deserialize P s = .error (.custom e.message)) := by
  refine ⟨?_, ?_, rfl, ?_⟩
  · cases hp : P.isPrefixOf s
    · simp [BytesToHexSerde.deserialize, hp]
    · cases hd : hexDecode (s.drop P.length) with
      | ok b => simp [BytesToHexSerde.deserialize, hp, hd, exceptMapError]
      | error e => simp [BytesToHexSerde.deserialize, hp, hd, exceptMapError]
  · intro hp
    simp [BytesToHexSerde.deserialize, hp]
  · intro e hp hd
    simp [BytesToHexSerde.deserialize, hp, hd, exceptMapError]

theorem C3_deserialize_classification_witness :
    BytesToHexSerde.deserialize ZeroxPrefix "1a2b".data =
      .error (.custom (missingTagMessage ZeroxPrefix)) :=
  (C3_deserialize_classification ZeroxPrefix "1a2b".data).2.1 (by decide)

/-- Claim C5: for every optional byte sequence and every registered tag,
deserializing the optional serialization returns the original value,
including the absent case. -/
theorem C5_roundtrip_option (ob : Option (List Nat))
    (hb : ∀ b ∈ ob, ∀ x ∈ b, x < 256) (P : List Char)
    (_hP : P = SyncBlockPrefix ∨ P = ZeroxPrefix ∨ P = SyncTxPrefix) :
    OptionBytesToHexSerde.deserialize P (OptionBytesToHexSerde.serialize P ob) =
      .ok ob := by
  cases ob with
  | none => rfl
  | some b =>
    have hb₂ : ∀ x ∈ b, x < 256 := hb b rfl
    show OptionBytesToHexSerde.deserialize P (some (P ++ hexEncode b)) = .ok (some b)
    rw [option_deserialize_some, deserialize_append_hexEncode P b hb₂]

theorem C5_roundtrip_option_witness :
    OptionBytesToHexSerde.deserialize SyncTxPrefix
        (OptionBytesToHexSerde.serialize SyncTxPrefix (some [171, 205])) =
      .ok (some [171, 205]) :=
  C5_roundtrip_option (some [171, 205]) (by decide) SyncTxPrefix
    (Or.inr (Or.inr rfl))

/-- Claim C6: the optional encoder maps the absent case to serde's native
absent marker (`none`), never to a tagged hex string; the present case
delegates to the non-optional encoder; and decoding the absent marker yields
the absent value. -/
theorem C6_option_serialize_spec (P : List Char) :
    OptionBytesToHexSerde.serialize P none = none ∧
    (∀ b, OptionBytesToHexSerde.serialize P (some b) =
      some (BytesToHexSerde.serialize P b)) ∧
    OptionBytesToHexSerde.deserialize P none = .ok none ∧
    (∀ b, OptionBytesToHexSerde.serialize P (some b) ≠
      OptionBytesToHexSerde.serialize P none) :=
  ⟨rfl, fun _ => rfl, rfl, fun b => by simp [OptionBytesToHexSerde.serialize]⟩

/-- Claim C7: on a present string the optional decoder agrees with the
non-optional decoder, returning `some` of its value on success and its error
unchanged on failure. -/
theorem C7_option_deserialize_agrees (P s : List Char) :
    OptionBytesToHexSerde.deserialize P (some s) =
      (BytesToHexSerde.deserialize P s).map some := by
  rw [option_deserialize_some]
  cases BytesToHexSerde.deserialize P s <;> rfl

/-- Claim C8: for every ordered pair of distinct registered tags, decoding
under one tag a string encoded under the other fails with the
missing-prefix format error. -/
theorem C8_tag_discrimination (b : List Nat) :
    BytesToHexSerde.deserialize SyncBlockPrefix
        (BytesToHexSerde.serialize ZeroxPrefix b) =
      .error (.custom (missingTagMessage SyncBlockPrefix)) ∧
    BytesToHexSerde.deserialize SyncBlockPrefix
        (BytesToHexSerde.serialize SyncTxPrefix b) =
      .error (.custom (missingTagMessage SyncBlockPrefix)) ∧
    BytesToHexSerde.deserialize ZeroxPrefix
        (BytesToHexSerde.serialize SyncBlockPrefix b) =
      .error (.custom (missingTagMessage ZeroxPrefix)) ∧
    BytesToHexSerde.deserialize ZeroxPrefix
        (BytesToHexSerde.serialize SyncTxPrefix b) =
      .error (.custom (missingTagMessage ZeroxPrefix)) ∧
    BytesToHexSerde.deserialize SyncTxPrefix
        (BytesToHexSerde.serialize SyncBlockPrefix b) =
      .error (.custom (missingTagMessage SyncTxPrefix)) ∧
    BytesToHexSerde.deserialize SyncTxPrefix
        (BytesToHexSerde.serialize ZeroxPrefix b) =
      .error (.custom (missingTagMessage SyncTxPrefix)) := by
  have key : ∀ T U : List Char, ¬ T <+: U → ¬ U <+: T →
      BytesToHexSerde.deserialize T (BytesToHexSerde.serialize U b) =
        .error (.custom (missingTagMessage T)) := by
    intro T U h₁ h₂
    unfold BytesToHexSerde.serialize BytesToHexSerde.deserialize
    simp [not_isPrefixOf_append h₁ h₂]
  exact ⟨key _ _ (by decide) (by decide), key _ _ (by decide) (by decide),
    key _ _ (by decide) (by decide), key _ _ (by decide) (by decide),
    key _ _ (by decide) (by decide), key _ _ (by decide) (by decide)⟩

/-- Claim C9: serialization is exactly the tag followed by the lowercase hex
encoding of the bytes, always succeeds, yields the tag alone on the empty
sequence, and on `[0xAB, 0xCD]` under `SyncBlockPrefix` yields
`"sync-bl:abcd"`. -/
theorem C9_serialize_spec (P : List Char) (b : List Nat)
    (hb : ∀ x ∈ b, x < 256) :
    BytesToHexSerde.serialize P b = P ++ hexEncode b ∧
    (∀ c ∈ hexEncode b, c ∈ "0123456789abcdef".data) ∧
    BytesToHexSerde.serialize P [] = P ∧
    BytesToHexSerde.serialize SyncBlockPrefix [171, 205] = "sync-bl:abcd".data :=
  ⟨rfl, hexEncode_lowercase b hb,
    by simp [BytesToHexSerde.serialize, hexEncode], by decide⟩

theorem C9_serialize_spec_witness :
    BytesToHexSerde.serialize SyncBlockPrefix [171, 205] = "sync-bl:abcd".data :=
  (C9_serialize_spec SyncBlockPrefix [171, 205] (by decide)).2.2.2

/-- Claim C10: both decoders are total: on every input they return either a
decoded byte sequence (every element a genuine byte) or a typed error, never
anything else. -/
theorem C10_deserialize_total (P s : List Char) (os : Option (List Char)) :
    ((∃ b, BytesToHexSerde.deserialize P s = .ok b ∧ ∀ x ∈ b, x < 256) ∨
      (∃ e, BytesToHexSerde.deserialize P s = .error e)) ∧
    ((∃ ob, OptionBytesToHexSerde.deserialize P os = .ok ob ∧
        ∀ b ∈ ob, ∀ x ∈ b, x < 256) ∨
      (∃ e, OptionBytesToHexSerde.deserialize P os = .error e)) := by
  constructor
  · cases h : BytesToHexSerde.deserialize P s with
    | ok b => exact Or.inl ⟨b, rfl, deserialize_ok_bytes h⟩
    | error e => exact Or.inr ⟨e, rfl⟩
  · cases os with
    | none =>
      refine Or.inl ⟨none, rfl, ?_⟩
      intro b hb
      cases hb
    | some s₂ =>
      rw [option_deserialize_some]
      cases h : BytesToHexSerde.deserialize P s₂ with
      | ok b =>
        refine Or.inl ⟨some b, rfl, ?_⟩
        intro b₂ hb₂
        cases hb₂
        exact deserialize_ok_bytes h
      | error e => exact Or.inr ⟨e, rfl⟩

/-! ## Helper lemmas about the exact-decimal adapter -/

theorem tenToThe_pos (k : Nat) : 0 < tenToThe k := pow_pos (by norm_num) k

/-- On an integral `BigDecimal`, truncation to scale 0 is exact: the
resulting integer equals the denoted rational value. -/
theorem withScale0_cast (bd : BigDecimal) (h : bd.isInteger = true) :
    (bd.withScale0IntVal : Rat) = bd.value := by
  unfold BigDecimal.withScale0IntVal BigDecimal.value
  rcases lt_trichotomy bd.scale 0 with hs | hs | hs
  · rw [if_pos (by omega)]
    set k := (0 - bd.scale).toNat with hk
    have hsk : bd.scale = -(k : Int) := by omega
    rw [hsk, zpow_neg, div_eq_mul_inv, inv_inv, zpow_natCast]
    push_cast [tenToThe]
    ring
  · rw [if_neg (by omega), if_neg (by omega), hs]
    norm_num
  · rw [if_neg (by omega), if_pos (by omega)]
    unfold BigDecimal.isInteger at h
    rw [if_neg (by omega)] at h
    have hmod : bd.intVal.tmod (tenToThe bd.scale.toNat) = 0 := beq_iff_eq.mp h
    obtain ⟨c, hc⟩ := Int.dvd_of_tmod_eq_zero hmod
    obtain ⟨k, hk⟩ := Int.eq_ofNat_of_zero_le (le_of_lt hs)
    rw [hc, Int.mul_tdiv_cancel_left c (ne_of_gt (tenToThe_pos _)), hk]
    simp only [Int.toNat_natCast]
    rw [zpow_natCast]
    push_cast [tenToThe]
    rw [mul_comm ((10 : Rat) ^ k) (c : Rat), mul_div_assoc,
      div_self (by positivity), mul_one]

/-! ## Claim theorems: exact-decimal adapter -/

/-- Claim C2: `to_sql` always succeeds, producing the exact decimal with
scale 0 (zero fractional digits), and `from_sql` of that decimal returns the
original unsigned big integer, for every `n` — in particular for `2 ^ 128`,
beyond any machine word. -/
theorem C2_stored_biguint_roundtrip (n : Nat) :
    StoredBigUint.to_sql ⟨n⟩ = ⟨(n : Int), 0⟩ ∧
    (StoredBigUint.to_sql ⟨n⟩).scale = 0 ∧
    StoredBigUint.from_sql (some (StoredBigUint.to_sql ⟨n⟩)) = .ok ⟨n⟩ ∧
    StoredBigUint.from_sql (some (StoredBigUint.to_sql ⟨2 ^ 128⟩)) =
      .ok ⟨2 ^ 128⟩ := by
  have key : ∀ m : Nat,
      StoredBigUint.from_sql (some (StoredBigUint.to_sql ⟨m⟩)) = .ok ⟨m⟩ := by
    intro m
    have h₁ : BigDecimal.isInteger ⟨(m : Int), 0⟩ = true := rfl
    have h₂ : (BigDecimal.toBigInt ⟨(m : Int), 0⟩).bind bigIntToBigUint =
        some m := by
      show bigIntToBigUint (BigDecimal.withScale0IntVal ⟨(m : Int), 0⟩) = some m
      have hv : BigDecimal.withScale0IntVal ⟨(m : Int), 0⟩ = (m : Int) := rfl
      rw [hv]
      unfold bigIntToBigUint
      rw [if_neg (by omega), Int.toNat_natCast]
    simp [StoredBigUint.from_sql, StoredBigUint.to_sql, h₁, h₂]
  exact ⟨rfl, rfl, key n, key (2 ^ 128)⟩

/-- Claim C4: `from_sql` classifies its input exactly: an absent raw value
fails with the missing-value error, a decimal with a non-zero fractional
part fails with the non-integral error, an integral but negative decimal
fails with the negative-value error, and otherwise it succeeds with the
unique unsigned integer whose value equals the decimal's. -/
theorem C4_from_sql_classification (bd : BigDecimal) :
    StoredBigUint.from_sql none = .error .unexpectedNull ∧
    (bd.isInteger = false →
      StoredBigUint.from_sql (some bd) =
        .error (.custom "Decimal number stored as BigUint".data)) ∧
    (bd.isInteger = true → bd.withScale0IntVal < 0 →
      StoredBigUint.from_sql (some bd) =
        .error (.custom "Not unsigned integer".data)) ∧
    (bd.isInteger = true → 0 ≤ bd.withScale0IntVal →
      StoredBigUint.from_sql (some bd) = .ok ⟨bd.withScale0IntVal.toNat⟩ ∧
      (bd.withScale0IntVal.toNat : Rat) = bd.value) := by
  refine ⟨rfl, ?_, ?_, ?_⟩
  · intro h
    simp [StoredBigUint.from_sql, h]
  · intro h₁ h₂
    have hb : (BigDecimal.toBigInt bd).bind bigIntToBigUint = none := by
      show bigIntToBigUint bd.withScale0IntVal = none
      unfold bigIntToBigUint
      rw [if_pos h₂]
    simp [StoredBigUint.from_sql, h₁, hb]
  · intro h₁ h₂
    have hb : (BigDecimal.toBigInt bd).bind bigIntToBigUint =
        some bd.withScale0IntVal.toNat := by
      show bigIntToBigUint bd.withScale0IntVal =
        some bd.withScale0IntVal.toNat
      unfold bigIntToBigUint
      rw [if_neg (by omega)]
    refine ⟨by simp [StoredBigUint.from_sql, h₁, hb], ?_⟩
    have hInt : (bd.withScale0IntVal.toNat : Int) = bd.withScale0IntVal :=
      Int.toNat_of_nonneg h₂
    rw [← withScale0_cast bd h₁, ← hInt]
    push_cast
    rw [Int.toNat_natCast]

theorem C4_from_sql_classification_witness :
    StoredBigUint.from_sql (some ⟨15, 1⟩) =
      .error (.custom "Decimal number stored as BigUint".data) ∧
    StoredBigUint.from_sql (some ⟨-3, 0⟩) =
      .error (.custom "Not unsigned integer".data) ∧
    StoredBigUint.from_sql (some ⟨20, 1⟩) = .ok ⟨2⟩ ∧
    StoredBigUint.from_sql (some ⟨0, 0⟩) = .ok ⟨0⟩ := by
  refine ⟨(C4_from_sql_classification ⟨15, 1⟩).2.1 (by decide),
    (C4_from_sql_classification ⟨-3, 0⟩).2.2.1 (by decide) (by decide), ?_, ?_⟩
  · exact ((C4_from_sql_classification ⟨20, 1⟩).2.2.2 (by decide) (by decide)).1
  · exact ((C4_from_sql_classification ⟨0, 0⟩).2.2.2 (by decide) (by decide)).1

end ZkSyncStorage
